import Mathlib

/-!
Shallow embedding of the cosmos-chess contract (src/src/contract.rs) and of the
repository modules it uses.  Only `contract.rs` is available; the modules
`cwchess.rs`, `state.rs`, `elo.rs`, `msg.rs` are modelled from the design
document where a definition is marked `Modelled from the spec:`.  External
collaborators (the chess engine, the elo arithmetic for a fixed configuration,
and the api's address validation) are abstracted into an `Ext` record of pure
functions.
-/

namespace CosmosChess

/-- A bech32 account address; identity is external, so a plain string. -/
abbrev Addr := String

/-- The two chess colors (cwchess.rs `CwChessColor`). -/
inductive CwChessColor
  | White
  | Black
deriving DecidableEq, Repr

/-- The nine terminal game tags (cwchess.rs `CwChessGameOver`), as matched in
contract.rs lines 330-340. -/
inductive CwChessGameOver
  | BlackCheckmates
  | BlackResigns
  | BlackTimeout
  | DrawAccepted
  | DrawDeclared
  | Stalemate
  | WhiteCheckmates
  | WhiteResigns
  | WhiteTimeout
deriving DecidableEq, Repr

/-- The elo crate's match outcome from player1's perspective (elo.rs). -/
inductive Outcomes
  | WIN
  | LOSS
  | DRAW
deriving DecidableEq, Repr

/-- Modelled from the spec: the turn actions of cwchess.rs `CwChessAction`:
a chess move in algebraic form, resignation, and the draw-offer actions. -/
inductive CwChessAction
  | AcceptDraw
  | DeclineDraw
  | MakeMove (mv : String)
  | OfferDraw
  | Resign
deriving DecidableEq, Repr

/-- Whether an action is a chess move (as opposed to resign/draw actions). -/
def CwChessAction.isMakeMove : CwChessAction → Bool
  | .MakeMove _ => true
  | _ => false

/-- Errors of the external standard layer (storage load failure, address
validation failure). -/
inductive StdError
  | notFound
  | invalidAddr
deriving DecidableEq, Repr

/-- The contract error taxonomy (error.rs, as used by contract.rs). -/
inductive ContractError
  | Std (e : StdError)
  | ChallengeNotFound
  | CannotPlaySelf
  | NotYourChallenge
  | GameNotFound
  | GameNotTimedOut
  | GameAlreadyOver
  | NotYourTurn
  | InvalidMove
  | DrawAlreadyOffered
  | NoDrawOffered
deriving DecidableEq, Repr

/-- A challenge record (state.rs `Challenge`, with the fields used by
contract.rs lines 215-222). -/
structure Challenge where
  block_created : Nat
  block_limit : Option Nat
  challenge_id : Nat
  created_by : Addr
  opponent : Option Addr
  play_as : Option CwChessColor
deriving DecidableEq, Repr

/-- A game record (cwchess.rs `CwChessGame`, with exactly the fields of the
struct literal in contract.rs lines 135-144). -/
structure CwChessGame where
  block_limit : Option Nat
  block_start : Nat
  fen : String
  game_id : Nat
  player1 : Addr
  player2 : Addr
  moves : List (Nat × CwChessAction)
  status : Option CwChessGameOver
deriving DecidableEq, Repr

/-- Modelled from the spec: `GameSummary` from msg.rs (not under src/), the
per-game summary returned by GetGames. -/
structure GameSummary where
  game_id : Nat
  player1 : Addr
  player2 : Addr
  status : Option CwChessGameOver
deriving DecidableEq, Repr

/-- `GameSummary::from(&game)` (msg.rs, not under src/): projects the summary
fields out of a game. -/
def GameSummary.ofGame (g : CwChessGame) : GameSummary :=
  { game_id := g.game_id, player1 := g.player1, player2 := g.player2, status := g.status }

/-- The external collaborators, abstracted as pure functions:
`applyMove fen mv` is the chess engine's single-move application on a board
encoding (`none` = illegal move; on success the new encoding and the terminal
tag game-over detection produced, if any); `eloFn r1 r2 outcome` is the elo
crate's `elo` function for the fixed `EloConfig::new()`; `validAddr` is the
api's `addr_validate` validity predicate. -/
structure Ext where
  applyMove : String → String → Option (String × Option CwChessGameOver)
  eloFn : Nat → Nat → Outcomes → Nat × Nat
  validAddr : String → Bool

/-- `EloRating::new()` (elo.rs, not under src/) — the spec fixes a default
initial rating ("default value fixed, e.g. 1200-equivalent"). -/
def defaultRating : Nat := 1200

/-- The initial board encoding (contract.rs line 21, `DEFAULT_FEN`). -/
def DEFAULT_FEN : String := "rnbqkbnr/pppppppp/8/8/8/8/PPPPPPPP/RNBQKBNR w KQkq - 0 1"

/-! ## cwchess.rs game-state functions, modelled from the spec -/

/-- Modelled from the spec: the color to move alternates strictly with each
accepted move, White first; derived from the number of chess moves in the
append-only move log. -/
def turn_color (game : CwChessGame) : CwChessColor :=
  if (game.moves.filter (fun m => m.2.isMakeMove)).length % 2 = 0 then
    CwChessColor.White
  else
    CwChessColor.Black

/-- The address of the color to move (player1 is White, player2 is Black). -/
def player_to_move (game : CwChessGame) : Addr :=
  match turn_color game with
  | CwChessColor.White => game.player1
  | CwChessColor.Black => game.player2

/-- The address of the color not to move. -/
def other_player (game : CwChessGame) : Addr :=
  match turn_color game with
  | CwChessColor.White => game.player2
  | CwChessColor.Black => game.player1

/-- Modelled from the spec: a draw offer is pending exactly when the last
logged action is an OfferDraw (the game struct has no separate flag field). -/
def draw_offer_pending (game : CwChessGame) : Bool :=
  match game.moves.getLast? with
  | some (_, CwChessAction.OfferDraw) => true
  | _ => false

/-- Modelled from the spec: `CwChessGame::check_timeout` from cwchess.rs (not
under src/).  Any action against a game that already has a terminal status
fails with a game-over error; otherwise it computes the elapsed ticks since
the later of `block_start` and the last move's tick, and if `block_limit` is
set and elapsed exceeds it, sets the status to the timeout tag of the color
to move and returns that tag; otherwise returns `none` (the caller turns this
into `GameNotTimedOut`). -/
def check_timeout (game : CwChessGame) (height : Nat) :
    Except ContractError (CwChessGame × Option CwChessGameOver) :=
  if game.status.isSome then
    Except.error ContractError.GameAlreadyOver
  else
    match game.block_limit with
    | none => Except.ok (game, none)
    | some limit =>
      let baseline :=
        match game.moves.getLast? with
        | some m => max game.block_start m.1
        | none => game.block_start
      if limit < height - baseline then
        let tag :=
          match turn_color game with
          | CwChessColor.White => CwChessGameOver.WhiteTimeout
          | CwChessColor.Black => CwChessGameOver.BlackTimeout
        Except.ok ({ game with status := some tag }, some tag)
      else
        Except.ok (game, none)

/-- Modelled from the spec: `CwChessGame::make_move` from cwchess.rs (not
under src/).  Fails with a game-over error when the status is already set;
adjudicates a pending timeout first (the status match in contract.rs lines
330-336 expects timeout tags out of a Turn); requires the caller to be the
color to move for moves and draw offers, and the color that did not initiate
the pending offer for draw responses; chess-move legality and game-over
detection are delegated to the external engine `oracle`; Resign
unconditionally sets the resigning color's tag. -/
def make_move (oracle : String → String → Option (String × Option CwChessGameOver))
    (game : CwChessGame) (player : Addr) (mv : Nat × CwChessAction) :
    Except ContractError CwChessGame :=
  if game.status.isSome then
    Except.error ContractError.GameAlreadyOver
  else
    match check_timeout game mv.1 with
    | Except.error e => Except.error e
    | Except.ok (g', some _) => Except.ok g'
    | Except.ok (_, none) =>
      match mv.2 with
      | CwChessAction.Resign =>
        if player = game.player1 then
          Except.ok { game with status := some CwChessGameOver.WhiteResigns,
                                moves := game.moves ++ [mv] }
        else if player = game.player2 then
          Except.ok { game with status := some CwChessGameOver.BlackResigns,
                                moves := game.moves ++ [mv] }
        else
          Except.error ContractError.NotYourTurn
      | CwChessAction.MakeMove m =>
        if player ≠ player_to_move game then
          Except.error ContractError.NotYourTurn
        else
          match oracle game.fen m with
          | none => Except.error ContractError.InvalidMove
          | some r =>
            Except.ok { game with fen := r.1, moves := game.moves ++ [mv], status := r.2 }
      | CwChessAction.OfferDraw =>
        if player ≠ player_to_move game then
          Except.error ContractError.NotYourTurn
        else if draw_offer_pending game then
          Except.error ContractError.DrawAlreadyOffered
        else
          Except.ok { game with moves := game.moves ++ [mv] }
      | CwChessAction.AcceptDraw =>
        if ¬ draw_offer_pending game then
          Except.error ContractError.NoDrawOffered
        else if player ≠ other_player game then
          Except.error ContractError.NotYourTurn
        else
          Except.ok { game with status := some CwChessGameOver.DrawAccepted,
                                moves := game.moves ++ [mv] }
      | CwChessAction.DeclineDraw =>
        if ¬ draw_offer_pending game then
          Except.error ContractError.NoDrawOffered
        else if player ≠ other_player game then
          Except.error ContractError.NotYourTurn
        else
          Except.ok { game with moves := game.moves ++ [mv] }

/-- Modelled from the spec: `CwChessGame::valid_move` from cwchess.rs (not
under src/): the same legality and turn checks as a Move but without
mutation; an illegal move yields `false` instead of an error, other check
failures are errors (downgraded by the caller in contract.rs). -/
def CwChessGame.valid_move (oracle : String → String → Option (String × Option CwChessGameOver))
    (game : CwChessGame) (player : Addr) (mv : String) : Except ContractError Bool :=
  match make_move oracle game player (0, CwChessAction.MakeMove mv) with
  | Except.ok _ => Except.ok true
  | Except.error ContractError.InvalidMove => Except.ok false
  | Except.error e => Except.error e

/-- Modelled from the spec: `CwChessGame::get_turn` from cwchess.rs (not
under src/): true iff the game is ongoing and the caller is the color to
move. -/
def CwChessGame.get_turn (game : CwChessGame) (player : Addr) : Except ContractError Bool :=
  Except.ok (game.status.isNone && (player_to_move game == player))

/-- Modelled from the spec: `CwChessGame::get_player_order` from cwchess.rs
(not under src/): with a `play_as` preference the creator takes that color
and the acceptor the other; without one the color comes deterministically
from the parity of the logical clock at acceptance.  Returns
(player1, player2) with player1 = White. -/
def get_player_order (creator acceptor : Addr) (play_as : Option CwChessColor)
    (height : Nat) : Addr × Addr :=
  match play_as with
  | some CwChessColor.White => (creator, acceptor)
  | some CwChessColor.Black => (acceptor, creator)
  | none => if height % 2 = 0 then (creator, acceptor) else (acceptor, creator)

/-! ## Storage model (state.rs plus the cw-storage-plus collaborator)

The persistent store: the challenge and game collections (keyed by their
monotonic ids, scanned in ascending key order), the ratings collection keyed
by address, and the two id counters.  Keyed collections are association lists;
`upsertBy` is the keyed save (replace the entry with the same key, else insert
in key order), `removeBy`/`find?` are delete and load. -/

/-- Keyed save into an association list held in ascending key order:
replaces an entry with the same key, otherwise inserts before the first
larger key. -/
def upsertBy {α : Type} (key : α → Nat) (x : α) : List α → List α
  | [] => [x]
  | h :: t =>
    if key x < key h then x :: h :: t
    else if key x = key h then x :: t
    else h :: upsertBy key x t

/-- Keyed delete from an association list. -/
def removeBy {α : Type} (key : α → Nat) (id : Nat) (l : List α) : List α :=
  l.filter (fun y => key y != id)

/-- The whole persistent state of the contract. -/
structure Storage where
  challenges : List Challenge
  games : List CwChessGame
  ratings : List (Addr × Nat)
  challengeCount : Nat
  gameCount : Nat
deriving DecidableEq, Repr

/-- `challenges_map.load` — the challenge with a given id, if present. -/
def loadChallenge (st : Storage) (challenge_id : Nat) : Option Challenge :=
  st.challenges.find? (fun c => c.challenge_id == challenge_id)

/-- `games_map.load` — the game with a given id, if present. -/
def loadGame (st : Storage) (game_id : Nat) : Option CwChessGame :=
  st.games.find? (fun g => g.game_id == game_id)

/-- `challenges_map.save`. -/
def saveChallenge (st : Storage) (c : Challenge) : Storage :=
  { st with challenges := upsertBy Challenge.challenge_id c st.challenges }

/-- `games_map.save` (also the write performed by `games_map.update`). -/
def saveGame (st : Storage) (g : CwChessGame) : Storage :=
  { st with games := upsertBy CwChessGame.game_id g st.games }

/-- `challenges_map.remove`. -/
def removeChallenge (st : Storage) (challenge_id : Nat) : Storage :=
  { st with challenges := removeBy Challenge.challenge_id challenge_id st.challenges }

/-- `RATINGS.may_load` — the stored rating of an address, if present. -/
def lookupRating : List (Addr × Nat) → Addr → Option Nat
  | [], _ => none
  | p :: t, a => if p.1 = a then some p.2 else lookupRating t a

/-- `RATINGS.save`/`RATINGS.update` — store a rating for an address,
replacing an existing entry. -/
def setRating : List (Addr × Nat) → Addr → Nat → List (Addr × Nat)
  | [], a, r => [(a, r)]
  | p :: t, a, r => if p.1 = a then (a, r) :: t else p :: setRating t a r

/-- Modelled from the spec: `next_challenge_id` from state.rs (not under
src/): assigns the next monotonic challenge id. -/
def next_challenge_id (st : Storage) : Nat × Storage :=
  (st.challengeCount + 1, { st with challengeCount := st.challengeCount + 1 })

/-- Modelled from the spec: `next_game_id` from state.rs (not under src/):
assigns the next monotonic game id. -/
def next_game_id (st : Storage) : Nat × Storage :=
  (st.gameCount + 1, { st with gameCount := st.gameCount + 1 })

/-- Modelled from the spec: `merge_iters` from state.rs (not under src/):
two-way merge of two ascending sequences, repeatedly taking the
lesser-keyed head, favoring the first sequence when `le` holds (the call
sites pass `id1 <= id2`). -/
def merge_iters {α : Type} : List α → List α → (α → α → Bool) → List α
  | [], l2, _ => l2
  | l1, [], _ => l1
  | a :: t1, b :: t2, le =>
    if le a b then a :: merge_iters t1 (b :: t2) le
    else b :: merge_iters (a :: t1) t2 le
termination_by l1 l2 _ => l1.length + l2.length

/-- The opponent secondary index key of a challenge: open challenges are
indexed under the sentinel address "none" (contract.rs line 384 scans that
prefix for open challenges; the index itself is in state.rs, not under
src/). -/
def opponentKey (c : Challenge) : Addr := c.opponent.getD "none"

/-- `deps.api.addr_validate` of the api collaborator: validity itself is
external, supplied by `Ext.validAddr`. -/
def addr_validate (ext : Ext) (s : String) : Except StdError Addr :=
  if ext.validAddr s then Except.ok s else Except.error StdError.invalidAddr

/-! ## contract.rs -/

/-- contract.rs `def_player_rating` (lines 184-192): store the default rating
for the address only when none is stored yet. -/
def def_player_rating (st : Storage) (addr : Addr) : Storage :=
  match lookupRating st.ratings addr with
  | none => { st with ratings := setRating st.ratings addr defaultRating }
  | some _ => st

/-- contract.rs `get_player_rating` (lines 264-273): the stored rating, or
the default when absent. -/
def get_player_rating (st : Storage) (addr : Addr) : Nat :=
  (lookupRating st.ratings addr).getD defaultRating

/-- contract.rs `update_player_rating` (lines 276-285). -/
def update_player_rating (st : Storage) (addr : Addr) (rating : Nat) : Storage :=
  { st with ratings := setRating st.ratings addr rating }

/-- contract.rs `update_players_rating` (lines 288-306): read both ratings,
apply the elo function once, write both. -/
def update_players_rating (eloFn : Nat → Nat → Outcomes → Nat × Nat)
    (st : Storage) (game : CwChessGame) (outcome : Outcomes) : Storage :=
  let r := eloFn (get_player_rating st game.player1) (get_player_rating st game.player2) outcome
  update_player_rating (update_player_rating st game.player1 r.1) game.player2 r.2

/-- The status-to-outcome match of contract.rs `execute_turn`
(lines 329-341), from player1's (White's) perspective. -/
def statusToOutcome : CwChessGameOver → Outcomes
  | CwChessGameOver.WhiteCheckmates => Outcomes.WIN
  | CwChessGameOver.BlackResigns => Outcomes.WIN
  | CwChessGameOver.BlackTimeout => Outcomes.WIN
  | CwChessGameOver.BlackCheckmates => Outcomes.LOSS
  | CwChessGameOver.WhiteResigns => Outcomes.LOSS
  | CwChessGameOver.WhiteTimeout => Outcomes.LOSS
  | CwChessGameOver.DrawAccepted => Outcomes.DRAW
  | CwChessGameOver.DrawDeclared => Outcomes.DRAW
  | CwChessGameOver.Stalemate => Outcomes.DRAW

/-- The second half of contract.rs `execute_create_challenge` (lines
215-229): persist the challenge, then lazily initialize the creator's and,
when present, the opponent's rating. -/
def finishCreate (st : Storage) (block_created : Nat) (block_limit : Option Nat)
    (challenge_id : Nat) (created_by : Addr) (opponent : Option Addr)
    (play_as : Option CwChessColor) : Storage :=
  let challenge : Challenge :=
    { block_created := block_created, block_limit := block_limit,
      challenge_id := challenge_id, created_by := created_by,
      opponent := opponent, play_as := play_as }
  let st := saveChallenge st challenge
  let st := def_player_rating st created_by
  match opponent with
  | some o => def_player_rating st o
  | none => st

/-- contract.rs `execute_create_challenge` (lines 194-239).  Returns the new
state and the assigned challenge id. -/
def executeCreateChallenge (ext : Ext) (st : Storage) (height : Nat) (sender : Addr)
    (block_limit : Option Nat) (opponent : Option String)
    (play_as : Option CwChessColor) : Except ContractError (Storage × Nat) :=
  let block_created := height
  let ci := next_challenge_id st
  let challenge_id := ci.1
  let st := ci.2
  match opponent with
  | some a =>
    match addr_validate ext a with
    | Except.error e => Except.error (ContractError.Std e)
    | Except.ok addr =>
      if sender = addr then Except.error ContractError.CannotPlaySelf
      else
        Except.ok (finishCreate st block_created block_limit challenge_id sender (some addr) play_as,
                   challenge_id)
  | none =>
    Except.ok (finishCreate st block_created block_limit challenge_id sender none play_as,
               challenge_id)

/-- contract.rs `execute_accept_challenge` (lines 97-156).  Returns the new
state and the assigned game id. -/
def executeAcceptChallenge (st : Storage) (height : Nat) (sender : Addr)
    (challenge_id : Nat) : Except ContractError (Storage × Nat) :=
  match loadChallenge st challenge_id with
  | none => Except.error ContractError.ChallengeNotFound
  | some challenge =>
    if challenge.created_by = sender then Except.error ContractError.CannotPlaySelf
    else
      match challenge.opponent with
      | some opponent =>
        if opponent ≠ sender then Except.error ContractError.NotYourChallenge
        else Except.ok (acceptBody st height sender challenge challenge_id)
      | none => Except.ok (acceptBody st height sender challenge challenge_id)
where
  /-- The success path (lines 124-148): initialize the acceptor's rating,
  assign the next game id, compute the player order, create the game with the
  default board, empty move log and absent status, save it, and delete the
  challenge. -/
  acceptBody (st : Storage) (height : Nat) (sender : Addr) (challenge : Challenge)
      (challenge_id : Nat) : Storage × Nat :=
    let st := def_player_rating st sender
    let gi := next_game_id st
    let game_id := gi.1
    let st := gi.2
    let po := get_player_order challenge.created_by sender challenge.play_as height
    let game : CwChessGame :=
      { block_limit := challenge.block_limit, block_start := height,
        fen := DEFAULT_FEN, game_id := game_id,
        player1 := po.1, player2 := po.2, moves := [], status := none }
    let st := saveGame st game
    let st := removeChallenge st challenge_id
    (st, game_id)

/-- contract.rs `execute_cancel_challenge` (lines 158-181). -/
def executeCancelChallenge (st : Storage) (sender : Addr) (challenge_id : Nat) :
    Except ContractError Storage :=
  match loadChallenge st challenge_id with
  | none => Except.error ContractError.ChallengeNotFound
  | some challenge =>
    if challenge.created_by ≠ sender then Except.error ContractError.NotYourChallenge
    else Except.ok (removeChallenge st challenge.challenge_id)

/-- contract.rs `execute_turn` (lines 308-355): load-modify-save the game
through `make_move`, then, when the resulting status is terminal, update both
players' ratings with the outcome of the status match. -/
def executeTurn (ext : Ext) (st : Storage) (height : Nat) (sender : Addr)
    (action : CwChessAction) (game_id : Nat) : Except ContractError Storage :=
  match loadGame st game_id with
  | none => Except.error ContractError.GameNotFound
  | some game =>
    match make_move ext.applyMove game sender (height, action) with
    | Except.error e => Except.error e
    | Except.ok game' =>
      let st := saveGame st game'
      match game'.status with
      | some status => Except.ok (update_players_rating ext.eloFn st game' (statusToOutcome status))
      | none => Except.ok st

/-- contract.rs `execute_declare_timeout` (lines 241-261): load-modify-save
through `check_timeout`; a `none` timeout result becomes `GameNotTimedOut`.
No rating update is performed. -/
def executeDeclareTimeout (st : Storage) (height : Nat) (game_id : Nat) :
    Except ContractError Storage :=
  match loadGame st game_id with
  | none => Except.error ContractError.GameNotFound
  | some game =>
    match check_timeout game height with
    | Except.error e => Except.error e
    | Except.ok (_, none) => Except.error ContractError.GameNotTimedOut
    | Except.ok (game', some _) => Except.ok (saveGame st game')

/-- The storage collaborator's transactional guarantee: a failed execute
aborts the whole unit of work, so the caller observes the pre-state. -/
def commitS (st : Storage) : Except ContractError Storage → Storage
  | Except.ok st' => st'
  | Except.error _ => st

/-- `commitS` for the operations that also return an id. -/
def commitP (st : Storage) : Except ContractError (Storage × Nat) → Storage
  | Except.ok r => r.1
  | Except.error _ => st

/-- contract.rs `query_get_challenge` (lines 357-362). -/
def queryGetChallenge (st : Storage) (challenge_id : Nat) : Except StdError Challenge :=
  match loadChallenge st challenge_id with
  | some c => Except.ok c
  | none => Except.error StdError.notFound

/-- contract.rs `query_get_game` (lines 364-369). -/
def queryGetGame (st : Storage) (game_id : Nat) : Except StdError CwChessGame :=
  match loadGame st game_id with
  | some g => Except.ok g
  | none => Except.error StdError.notFound

/-- The exclusive lower cursor bound `Bound::exclusive(after)` applied by the
range scans. -/
def boundAfter (after : Option Nat) (id : Nat) : Bool :=
  match after with
  | none => true
  | some a => a < id

/-- contract.rs `query_get_challenges` (lines 371-414): without a player,
the open challenges (opponent index prefix "none"); with a player, the
two-way merge of the created_by and opponent index scans; both cursor-bounded
and truncated to 25. -/
def queryGetChallenges (ext : Ext) (st : Storage) (after : Option Nat)
    (player : Option String) : Except StdError (List Challenge) :=
  match player with
  | none =>
    Except.ok ((st.challenges.filter
      (fun c => opponentKey c == "none" && boundAfter after c.challenge_id)).take 25)
  | some a =>
    match addr_validate ext a with
    | Except.error e => Except.error e
    | Except.ok addr =>
      let created := st.challenges.filter
        (fun c => c.created_by == addr && boundAfter after c.challenge_id)
      let opp := st.challenges.filter
        (fun c => opponentKey c == addr && boundAfter after c.challenge_id)
      Except.ok ((merge_iters created opp
        (fun c1 c2 => decide (c1.challenge_id ≤ c2.challenge_id))).take 25)

/-- contract.rs `query_get_games` (lines 416-464): without a player, a full
ascending scan; with a player, the two-way merge of the player1 and player2
index scans; filtered to ongoing games unless `game_over` is true, mapped to
summaries and truncated to 25. -/
def queryGetGames (ext : Ext) (st : Storage) (after : Option Nat)
    (game_over : Option Bool) (player : Option String) :
    Except StdError (List GameSummary) :=
  let go := game_over.getD false
  match player with
  | none =>
    Except.ok ((((st.games.filter (fun g => boundAfter after g.game_id)).filter
      (fun g => go || g.status.isNone)).map GameSummary.ofGame).take 25)
  | some a =>
    match addr_validate ext a with
    | Except.error e => Except.error e
    | Except.ok addr =>
      let p1 := st.games.filter
        (fun g => g.player1 == addr && boundAfter after g.game_id)
      let p2 := st.games.filter
        (fun g => g.player2 == addr && boundAfter after g.game_id)
      Except.ok ((((merge_iters p1 p2
        (fun g1 g2 => decide (g1.game_id ≤ g2.game_id))).filter
        (fun g => go || g.status.isNone)).map GameSummary.ofGame).take 25)

/-- contract.rs `query_valid_move` (lines 466-484): load the game (a failure
propagates), validate the player address (a failure propagates), then
downgrade any error of the game's own move validation to `false`. -/
def queryValidMove (ext : Ext) (st : Storage) (game_id : Nat) (player : String)
    (move_str : String) : Except StdError Bool :=
  match loadGame st game_id with
  | none => Except.error StdError.notFound
  | some game =>
    match addr_validate ext player with
    | Except.error e => Except.error e
    | Except.ok addr =>
      match CwChessGame.valid_move ext.applyMove game addr move_str with
      | Except.ok valid => Except.ok valid
      | Except.error _ => Except.ok false

/-- contract.rs `query_get_turn` (lines 506-522): load the game (a failure
propagates), validate the player address (a failure propagates), then
downgrade any error of the game's own turn check to `false`. -/
def queryGetTurn (ext : Ext) (st : Storage) (game_id : Nat) (player : String) :
    Except StdError Bool :=
  match loadGame st game_id with
  | none => Except.error StdError.notFound
  | some game =>
    match addr_validate ext player with
    | Except.error e => Except.error e
    | Except.ok addr =>
      match CwChessGame.get_turn game addr with
      | Except.ok turn => Except.ok turn
      | Except.error _ => Except.ok false

/-! ## Helper lemmas -/

theorem merge_iters_perm {α : Type} :
    ∀ (l1 l2 : List α) (le : α → α → Bool),
      List.Perm (merge_iters l1 l2 le) (l1 ++ l2) := by
  intro l1
  induction l1 with
  | nil => intro l2 le; simp [merge_iters]
  | cons a t1 ih1 =>
    intro l2
    induction l2 with
    | nil => intro le; simp [merge_iters]
    | cons b t2 ih2 =>
      intro le
      simp only [merge_iters]
      by_cases h : le a b = true
      · simp only [h, if_true]
        exact (ih1 (b :: t2) le).cons a
      · simp only [h, if_false]
        refine List.Perm.trans ((ih2 le).cons b) ?h
        exact List.Perm.trans (List.Perm.swap a b (t1 ++ t2))
          ((List.perm_middle).symm.cons a)

theorem mem_merge_iters {α : Type} {x : α} {l1 l2 : List α} {le : α → α → Bool}
    (h : x ∈ merge_iters l1 l2 le) : x ∈ l1 ∨ x ∈ l2 := by
  have := (merge_iters_perm l1 l2 le).mem_iff (a := x)
  rw [this] at h
  exact List.mem_append.mp h

theorem merge_iters_sorted {α : Type} (k : α → Nat) (le : α → α → Bool)
    (hle : ∀ a b, le a b = true ↔ k a ≤ k b) :
    ∀ (l1 l2 : List α),
      l1.Pairwise (fun a b => k a ≤ k b) → l2.Pairwise (fun a b => k a ≤ k b) →
      (merge_iters l1 l2 le).Pairwise (fun a b => k a ≤ k b) := by
  intro l1
  induction l1 with
  | nil => intro l2 _ h2; simpa [merge_iters] using h2
  | cons a t1 ih1 =>
    intro l2
    induction l2 with
    | nil => intro h1 _; simpa [merge_iters] using h1
    | cons b t2 ih2 =>
      intro h1 h2
      simp only [merge_iters]
      by_cases h : le a b = true
      · rw [if_pos h]
        rw [List.pairwise_cons]
        constructor
        · intro x hx
          rcases mem_merge_iters hx with hx1 | hx2
          · exact (List.pairwise_cons.mp h1).1 x hx1
          · rcases List.mem_cons.mp hx2 with rfl | hx2'
            · exact (hle a x).mp h
            · exact Nat.le_trans ((hle a b).mp h) ((List.pairwise_cons.mp h2).1 x hx2')
        · exact ih1 (b :: t2) h1.of_cons h2
      · rw [if_neg h]
        have hba : k b ≤ k a :=
          Nat.le_of_not_le (fun hk => h ((hle a b).mpr hk))
        rw [List.pairwise_cons]
        constructor
        · intro x hx
          rcases mem_merge_iters hx with hx1 | hx2
          · rcases List.mem_cons.mp hx1 with rfl | hx1'
            · exact hba
            · exact Nat.le_trans hba ((List.pairwise_cons.mp h1).1 x hx1')
          · exact (List.pairwise_cons.mp h2).1 x hx2
        · exact ih2 h1 h2.of_cons

theorem mem_upsertBy {α : Type} (key : α → Nat) (x g : α) :
    ∀ (l : List α), x ∈ upsertBy key g l → x = g ∨ x ∈ l := by
  intro l
  induction l with
  | nil => intro h; simpa [upsertBy] using h
  | cons h t ih =>
    intro hx
    simp only [upsertBy] at hx
    by_cases h1 : key g < key h
    · simp only [h1, if_true] at hx
      rcases List.mem_cons.mp hx with rfl | hx'
      · exact Or.inl rfl
      · exact Or.inr hx'
    · simp only [h1, if_false] at hx
      by_cases h2 : key g = key h
      · simp only [h2, if_true] at hx
        rcases List.mem_cons.mp hx with rfl | hx'
        · exact Or.inl rfl
        · exact Or.inr (List.mem_cons_of_mem h hx')
      · simp only [h2, if_false] at hx
        rcases List.mem_cons.mp hx with rfl | hx'
        · exact Or.inr (List.mem_cons_self x t)
        · rcases ih hx' with h3 | h3
          · exact Or.inl h3
          · exact Or.inr (List.mem_cons_of_mem h h3)

theorem mem_of_mem_upsertBy_fresh {α : Type} (key : α → Nat) (x g : α) :
    ∀ (l : List α), x ∈ l → (∀ y ∈ l, key y ≠ key g) → x ∈ upsertBy key g l := by
  intro l
  induction l with
  | nil => intro h; simp at h
  | cons h t ih =>
    intro hx hfresh
    simp only [upsertBy]
    by_cases h1 : key g < key h
    · simp only [h1, if_true]
      exact List.mem_cons_of_mem g hx
    · simp only [h1, if_false]
      have h2 : key g ≠ key h := fun he => hfresh h (List.mem_cons_self h t) he.symm
      simp only [h2, if_false]
      rcases List.mem_cons.mp hx with rfl | hx'
      · exact List.mem_cons_self x _
      · exact List.mem_cons_of_mem h
          (ih hx' (fun y hy => hfresh y (List.mem_cons_of_mem h hy)))

theorem length_upsertBy_fresh {α : Type} (key : α → Nat) (g : α) :
    ∀ (l : List α), (∀ y ∈ l, key y ≠ key g) →
      (upsertBy key g l).length = l.length + 1 := by
  intro l
  induction l with
  | nil => intro _; simp [upsertBy]
  | cons h t ih =>
    intro hfresh
    simp only [upsertBy]
    by_cases h1 : key g < key h
    · simp [h1]
    · have h2 : key g ≠ key h := fun he => hfresh h (List.mem_cons_self h t) he.symm
      simp only [h1, if_false, h2, if_false, List.length_cons]
      rw [ih (fun y hy => hfresh y (List.mem_cons_of_mem h hy))]

theorem find?_upsertBy_fresh {α : Type} (key : α → Nat) (g : α) :
    ∀ (l : List α), (∀ y ∈ l, key y ≠ key g) →
      (upsertBy key g l).find? (fun y => key y == key g) = some g := by
  intro l
  induction l with
  | nil => intro _; simp [upsertBy, List.find?]
  | cons h t ih =>
    intro hfresh
    have h2 : key g ≠ key h := fun he => hfresh h (List.mem_cons_self h t) he.symm
    simp only [upsertBy]
    by_cases h1 : key g < key h
    · simp [h1, List.find?]
    · simp only [h1, if_false, h2, if_false]
      rw [List.find?]
      have : (key h == key g) = false := by
        simp only [beq_eq_false_iff_ne, ne_eq]
        exact fun he => h2 he.symm
      rw [this]
      exact ih (fun y hy => hfresh y (List.mem_cons_of_mem h hy))

theorem find?_removeBy_self {α : Type} (key : α → Nat) (id : Nat) (l : List α) :
    (removeBy key id l).find? (fun y => key y == id) = none := by
  rw [List.find?_eq_none]
  intro x hx
  have := (List.mem_filter.mp hx).2
  simpa [bne] using this

theorem find?_filter_of_find?_eq_none {α : Type} (p q : α → Bool) (l : List α)
    (h : l.find? p = none) : (l.filter q).find? p = none := by
  rw [List.find?_eq_none] at h ⊢
  intro x hx
  exact h x (List.mem_filter.mp hx).1

theorem lookupRating_setRating_self (a : Addr) (r : Nat) :
    ∀ (l : List (Addr × Nat)), lookupRating (setRating l a r) a = some r := by
  intro l
  induction l with
  | nil => simp [setRating, lookupRating]
  | cons p t ih =>
    simp only [setRating]
    by_cases h : p.1 = a
    · simp [h, lookupRating]
    · simp [h, lookupRating, ih]

theorem lookupRating_setRating_ne (a b : Addr) (r : Nat) (hne : a ≠ b) :
    ∀ (l : List (Addr × Nat)), lookupRating (setRating l b r) a = lookupRating l a := by
  have hba : b ≠ a := Ne.symm hne
  intro l
  induction l with
  | nil => simp [setRating, lookupRating, hba]
  | cons p t ih =>
    simp only [setRating]
    by_cases h : p.1 = b
    · simp [h, lookupRating, hba]
    · simp [h, lookupRating, ih]

theorem lookupRating_def_player_rating (st : Storage) (addr a : Addr) (r : Nat)
    (h : lookupRating st.ratings a = some r) :
    lookupRating (def_player_rating st addr).ratings a = some r := by
  unfold def_player_rating
  cases hload : lookupRating st.ratings addr with
  | some v => simpa [hload] using h
  | none =>
    have hne : a ≠ addr := by
      intro he; rw [he] at h; rw [h] at hload; exact Option.noConfusion hload
    simp only [hload]
    rw [lookupRating_setRating_ne a addr defaultRating hne st.ratings]
    exact h

theorem lookupRating_finishCreate (st : Storage) (bc : Nat) (bl : Option Nat) (cid : Nat)
    (cb : Addr) (opp : Option Addr) (pa : Option CwChessColor) (a : Addr) (r : Nat)
    (h : lookupRating st.ratings a = some r) :
    lookupRating (finishCreate st bc bl cid cb opp pa).ratings a = some r := by
  unfold finishCreate
  cases opp with
  | none => exact lookupRating_def_player_rating (saveChallenge st _) cb a r h
  | some o =>
    exact lookupRating_def_player_rating _ o a r
      (lookupRating_def_player_rating (saveChallenge st _) cb a r h)

theorem lookupRating_def_player_rating_self (st : Storage) (addr : Addr) :
    lookupRating (def_player_rating st addr).ratings addr =
      some ((lookupRating st.ratings addr).getD defaultRating) := by
  unfold def_player_rating
  cases h : lookupRating st.ratings addr with
  | none => simp [h, lookupRating_setRating_self]
  | some r => simp [h]

theorem def_player_rating_frame (st : Storage) (addr : Addr) :
    (def_player_rating st addr).challenges = st.challenges ∧
    (def_player_rating st addr).games = st.games ∧
    (def_player_rating st addr).challengeCount = st.challengeCount ∧
    (def_player_rating st addr).gameCount = st.gameCount := by
  unfold def_player_rating
  cases lookupRating st.ratings addr with
  | none => exact ⟨rfl, rfl, rfl, rfl⟩
  | some r => exact ⟨rfl, rfl, rfl, rfl⟩

theorem eq_of_mem_pairwise_lt {α : Type} (k : α → Nat) :
    ∀ (l : List α), l.Pairwise (fun a b => k a < k b) →
      ∀ a ∈ l, ∀ b ∈ l, k a = k b → a = b := by
  intro l
  induction l with
  | nil => intro _ a ha; simp at ha
  | cons h t ih =>
    intro hp a ha b hb hk
    have hhd := (List.pairwise_cons.mp hp).1
    rcases List.mem_cons.mp ha with rfl | ha' <;> rcases List.mem_cons.mp hb with rfl | hb'
    · rfl
    · exact absurd hk (Nat.ne_of_lt (hhd b hb'))
    · exact absurd hk.symm (Nat.ne_of_lt (hhd a ha'))
    · exact ih hp.of_cons a ha' b hb' hk

/-! ## Claim theorems -/

/-- C6: the two-way merge produces one ascending sequence, taking the
lesser-keyed head at each step and favoring the first sequence on equal keys;
merging the ascending id sequences [1,3,5] and [2,3,6] yields
[1,2,3,3,5,6], and with page size 2 and an exclusive cursor after id 2
(each source bounded by the cursor before merging, as in the listing
queries) the returned page is [3,3]. -/
theorem merge_pagination_example :
    merge_iters [1, 3, 5] [2, 3, 6] (fun a b => decide (a ≤ b)) = [1, 2, 3, 3, 5, 6] ∧
    (merge_iters (([1, 3, 5] : List Nat).filter (fun x => boundAfter (some 2) x))
      (([2, 3, 6] : List Nat).filter (fun x => boundAfter (some 2) x))
      (fun a b => decide (a ≤ b))).take 2 = [3, 3] := by
  constructor
  · simp [merge_iters]
  · simp [merge_iters, boundAfter, List.filter]

/-- C8: the outcome passed to the rating update by a terminal Turn is, from
player1's (White's) perspective: Win exactly for WhiteCheckmates,
BlackResigns, BlackTimeout; Loss exactly for BlackCheckmates, WhiteResigns,
WhiteTimeout; Draw exactly for DrawAccepted, DrawDeclared, Stalemate. -/
theorem turn_outcome_mapping :
    statusToOutcome CwChessGameOver.WhiteCheckmates = Outcomes.WIN ∧
    statusToOutcome CwChessGameOver.BlackResigns = Outcomes.WIN ∧
    statusToOutcome CwChessGameOver.BlackTimeout = Outcomes.WIN ∧
    statusToOutcome CwChessGameOver.BlackCheckmates = Outcomes.LOSS ∧
    statusToOutcome CwChessGameOver.WhiteResigns = Outcomes.LOSS ∧
    statusToOutcome CwChessGameOver.WhiteTimeout = Outcomes.LOSS ∧
    statusToOutcome CwChessGameOver.DrawAccepted = Outcomes.DRAW ∧
    statusToOutcome CwChessGameOver.DrawDeclared = Outcomes.DRAW ∧
    statusToOutcome CwChessGameOver.Stalemate = Outcomes.DRAW := by
  repeat constructor

/-- C10: lazy rating initialization never overwrites an existing rating: for
any address with a stored rating, `def_player_rating` and every successful
CreateChallenge and AcceptChallenge leave that stored value unchanged. -/
theorem lazy_rating_init_preserves_existing :
    (∀ (st : Storage) (addr a : Addr) (r : Nat),
      lookupRating st.ratings a = some r →
      lookupRating (def_player_rating st addr).ratings a = some r) ∧
    (∀ (ext : Ext) (st : Storage) (height : Nat) (sender : Addr)
        (block_limit : Option Nat) (opponent : Option String)
        (play_as : Option CwChessColor) (st' : Storage) (cid : Nat) (a : Addr) (r : Nat),
      lookupRating st.ratings a = some r →
      executeCreateChallenge ext st height sender block_limit opponent play_as =
        Except.ok (st', cid) →
      lookupRating st'.ratings a = some r) ∧
    (∀ (st : Storage) (height : Nat) (sender : Addr) (cid : Nat)
        (st' : Storage) (gid : Nat) (a : Addr) (r : Nat),
      lookupRating st.ratings a = some r →
      executeAcceptChallenge st height sender cid = Except.ok (st', gid) →
      lookupRating st'.ratings a = some r) := by
  refine ⟨lookupRating_def_player_rating, ?hc, ?ha⟩
  case hc =>
    intro ext st height sender block_limit opponent play_as st' cid a r h hok
    unfold executeCreateChallenge at hok
    cases opponent with
    | none =>
      simp only [Except.ok.injEq, Prod.mk.injEq] at hok
      rw [← hok.1]
      exact lookupRating_finishCreate _ _ _ _ _ _ _ a r h
    | some o =>
      simp only [addr_validate] at hok
      by_cases hv : ext.validAddr o = true
      · simp only [hv, if_true] at hok
        by_cases hself : sender = o
        · simp [hself] at hok
        · rw [if_neg hself] at hok
          simp only [Except.ok.injEq, Prod.mk.injEq] at hok
          rw [← hok.1]
          exact lookupRating_finishCreate _ _ _ _ _ _ _ a r h
      · simp [hv] at hok
  case ha =>
    intro st height sender cid st' gid a r h hok
    unfold executeAcceptChallenge at hok
    cases hc : loadChallenge st cid with
    | none => simp [hc] at hok
    | some c =>
      simp only [hc] at hok
      by_cases hself : c.created_by = sender
      · simp [hself] at hok
      · rw [if_neg hself] at hok
        have hbody : executeAcceptChallenge.acceptBody st height sender c cid = (st', gid) →
            lookupRating st'.ratings a = some r := by
          intro hok2
          unfold executeAcceptChallenge.acceptBody at hok2
          simp only [Prod.mk.injEq] at hok2
          rw [← hok2.1]
          exact lookupRating_def_player_rating _ sender a r h
        cases hopp : c.opponent with
        | none =>
          simp only [hopp, Except.ok.injEq] at hok
          exact hbody hok
        | some o =>
          simp only [hopp] at hok
          by_cases hno : o ≠ sender
          · simp [hno] at hok
          · rw [if_neg hno] at hok
            simp only [Except.ok.injEq] at hok
            exact hbody hok

/-- C10 witness: a concrete stored rating survives `def_player_rating` for a
different address and a successful CreateChallenge by another player. -/
theorem lazy_rating_init_preserves_existing_witness :
    lookupRating (def_player_rating
      { challenges := [], games := [], ratings := [("alice", 1300)],
        challengeCount := 0, gameCount := 0 } "bob").ratings "alice" = some 1300 :=
  lazy_rating_init_preserves_existing.1
    { challenges := [], games := [], ratings := [("alice", 1300)],
      challengeCount := 0, gameCount := 0 } "bob" "alice" 1300 (by rfl)

/-- A concrete external-collaborator instance for concrete evaluations: an
engine that rejects every move, an elo update moving 8 points, and address
validity = non-empty. -/
def extW : Ext :=
  { applyMove := fun _ _ => none,
    eloFn := fun r1 r2 _ => (r1 + 8, r2 - 8),
    validAddr := fun s => decide (s ≠ "") }

/-- The empty contract state. -/
def emptySt : Storage :=
  { challenges := [], games := [], ratings := [], challengeCount := 0, gameCount := 0 }

/-- C2 counterexample: on an unknown game_id, ValidMove and GetTurn do not
return `false` — the storage load failure propagates as a query error
(contract.rs lines 474 and 512 use `?` on the load). -/
theorem advisory_queries_unknown_game_cex :
    queryValidMove extW emptySt 7 "alice" "e2e4" = Except.error StdError.notFound ∧
    queryValidMove extW emptySt 7 "alice" "e2e4" ≠ Except.ok false ∧
    queryGetTurn extW emptySt 7 "alice" = Except.error StdError.notFound ∧
    queryGetTurn extW emptySt 7 "alice" ≠ Except.ok false := by
  refine ⟨rfl, ?h1, rfl, ?h2⟩
  · intro h
    exact Except.noConfusion h
  · intro h
    exact Except.noConfusion h

/-- C2 (amended): ValidMove and GetTurn downgrade only the errors of the
game's own move/turn validation, and downgrade them to the boolean `false`;
on a validation success they return exactly the validator's boolean; an
unknown game_id or an invalid player address instead propagates as a query
failure. -/
theorem advisory_queries_error_handling :
    (∀ (ext : Ext) (st : Storage) (gid : Nat) (p m : String),
      loadGame st gid = none →
      queryValidMove ext st gid p m = Except.error StdError.notFound ∧
      queryGetTurn ext st gid p = Except.error StdError.notFound) ∧
    (∀ (ext : Ext) (st : Storage) (gid : Nat) (g : CwChessGame) (p m : String),
      loadGame st gid = some g → ext.validAddr p = false →
      queryValidMove ext st gid p m = Except.error StdError.invalidAddr ∧
      queryGetTurn ext st gid p = Except.error StdError.invalidAddr) ∧
    (∀ (ext : Ext) (st : Storage) (gid : Nat) (g : CwChessGame) (p m : String),
      loadGame st gid = some g → ext.validAddr p = true →
      (∀ e, CwChessGame.valid_move ext.applyMove g p m = Except.error e →
        queryValidMove ext st gid p m = Except.ok false) ∧
      (∀ v, CwChessGame.valid_move ext.applyMove g p m = Except.ok v →
        queryValidMove ext st gid p m = Except.ok v) ∧
      (∀ e, CwChessGame.get_turn g p = Except.error e →
        queryGetTurn ext st gid p = Except.ok false) ∧
      (∀ t, CwChessGame.get_turn g p = Except.ok t →
        queryGetTurn ext st gid p = Except.ok t)) := by
  refine ⟨?h1, ?h2, ?h3⟩
  case h1 =>
    intro ext st gid p m h
    unfold queryValidMove queryGetTurn
    rw [h]
    exact ⟨rfl, rfl⟩
  case h2 =>
    intro ext st gid g p m h hv
    unfold queryValidMove queryGetTurn addr_validate
    rw [h, hv]
    exact ⟨rfl, rfl⟩
  case h3 =>
    intro ext st gid g p m h hv
    unfold queryValidMove queryGetTurn addr_validate
    rw [h, hv]
    simp only [if_true]
    refine ⟨?e1, ?o1, ?e2, ?o2⟩
    case e1 =>
      intro e he
      rw [he]
    case o1 =>
      intro v hvv
      rw [hvv]
    case e2 =>
      intro e he
      rw [he]
    case o2 =>
      intro t ht
      rw [ht]

/-- A state holding one fresh ongoing game between alice (White) and bob. -/
def oneGameSt : Storage :=
  { challenges := [],
    games := [{ block_limit := none, block_start := 0, fen := DEFAULT_FEN, game_id := 3,
                player1 := "alice", player2 := "bob", moves := [], status := none }],
    ratings := [], challengeCount := 0, gameCount := 3 }

/-- C2 witness: with White to move, bob's ValidMove fails the turn check
inside the game's own validation and the query downgrades that error to
`ok false`; alice's GetTurn succeeds and returns the validator's boolean
`true` unchanged. -/
theorem advisory_queries_error_handling_witness :
    queryValidMove extW oneGameSt 3 "bob" "e2e4" = Except.ok false ∧
    queryGetTurn extW oneGameSt 3 "alice" = Except.ok true := by
  have hb := advisory_queries_error_handling.2.2 extW oneGameSt 3
    { block_limit := none, block_start := 0, fen := DEFAULT_FEN, game_id := 3,
      player1 := "alice", player2 := "bob", moves := [], status := none }
    "bob" "e2e4" rfl rfl
  have ha := advisory_queries_error_handling.2.2 extW oneGameSt 3
    { block_limit := none, block_start := 0, fen := DEFAULT_FEN, game_id := 3,
      player1 := "alice", player2 := "bob", moves := [], status := none }
    "alice" "e2e4" rfl rfl
  exact ⟨hb.1 ContractError.NotYourTurn rfl, ha.2.2.2 true rfl⟩

/-- C4: AcceptChallenge fails with ChallengeNotFound when the challenge is
absent, CannotPlaySelf when the creator is the acceptor, NotYourChallenge
when the challenge is directed at someone else; and every failure leaves the
games and challenges collections unchanged. -/
theorem accept_challenge_failure_modes :
    (∀ (st : Storage) (height : Nat) (sender : Addr) (cid : Nat),
      loadChallenge st cid = none →
      executeAcceptChallenge st height sender cid =
        Except.error ContractError.ChallengeNotFound) ∧
    (∀ (st : Storage) (height : Nat) (sender : Addr) (cid : Nat) (c : Challenge),
      loadChallenge st cid = some c → c.created_by = sender →
      executeAcceptChallenge st height sender cid =
        Except.error ContractError.CannotPlaySelf) ∧
    (∀ (st : Storage) (height : Nat) (sender : Addr) (cid : Nat) (c : Challenge) (o : Addr),
      loadChallenge st cid = some c → c.created_by ≠ sender →
      c.opponent = some o → o ≠ sender →
      executeAcceptChallenge st height sender cid =
        Except.error ContractError.NotYourChallenge) ∧
    (∀ (st : Storage) (height : Nat) (sender : Addr) (cid : Nat) (e : ContractError),
      executeAcceptChallenge st height sender cid = Except.error e →
      (commitP st (executeAcceptChallenge st height sender cid)).games = st.games ∧
      (commitP st (executeAcceptChallenge st height sender cid)).challenges = st.challenges) := by
  refine ⟨?h1, ?h2, ?h3, ?h4⟩
  case h1 =>
    intro st height sender cid h
    unfold executeAcceptChallenge
    rw [h]
  case h2 =>
    intro st height sender cid c h hcb
    unfold executeAcceptChallenge
    rw [h]
    simp [hcb]
  case h3 =>
    intro st height sender cid c o h hcb hopp hno
    unfold executeAcceptChallenge
    simp only [h, if_neg hcb, hopp, if_pos hno]
  case h4 =>
    intro st height sender cid e h
    rw [h]
    exact ⟨rfl, rfl⟩

/-- C4 witness: accepting a missing challenge on the empty state fails with
ChallengeNotFound. -/
theorem accept_challenge_failure_modes_witness :
    executeAcceptChallenge emptySt 0 "alice" 1 =
      Except.error ContractError.ChallengeNotFound :=
  accept_challenge_failure_modes.1 emptySt 0 "alice" 1 rfl

/-- C3: once a game's status is set, every Turn and DeclareTimeout fails with
the game-over condition, and any failing Turn or DeclareTimeout commits no
mutation at all (the unit of work aborts to the pre-state). -/
theorem finished_game_rejects_turn_and_timeout :
    (∀ (ext : Ext) (st : Storage) (height : Nat) (sender : Addr) (action : CwChessAction)
        (gid : Nat) (g : CwChessGame) (s : CwChessGameOver),
      loadGame st gid = some g → g.status = some s →
      executeTurn ext st height sender action gid =
        Except.error ContractError.GameAlreadyOver) ∧
    (∀ (st : Storage) (height gid : Nat) (g : CwChessGame) (s : CwChessGameOver),
      loadGame st gid = some g → g.status = some s →
      executeDeclareTimeout st height gid = Except.error ContractError.GameAlreadyOver) ∧
    (∀ (ext : Ext) (st : Storage) (height : Nat) (sender : Addr) (action : CwChessAction)
        (gid : Nat) (e : ContractError),
      executeTurn ext st height sender action gid = Except.error e →
      commitS st (executeTurn ext st height sender action gid) = st) ∧
    (∀ (st : Storage) (height gid : Nat) (e : ContractError),
      executeDeclareTimeout st height gid = Except.error e →
      commitS st (executeDeclareTimeout st height gid) = st) := by
  refine ⟨?h1, ?h2, ?h3, ?h4⟩
  case h1 =>
    intro ext st height sender action gid g s h hs
    unfold executeTurn
    rw [h]
    unfold make_move
    simp [hs]
  case h2 =>
    intro st height gid g s h hs
    unfold executeDeclareTimeout
    rw [h]
    unfold check_timeout
    simp [hs]
  case h3 =>
    intro ext st height sender action gid e h
    rw [h]
    rfl
  case h4 =>
    intro st height gid e h
    rw [h]
    rfl

/-- A finished game used for concrete checks: White already checkmated. -/
def doneGame : CwChessGame :=
  { block_limit := some 10, block_start := 0, fen := DEFAULT_FEN, game_id := 2,
    player1 := "alice", player2 := "bob",
    moves := [(1, CwChessAction.MakeMove "f3"), (2, CwChessAction.MakeMove "e5")],
    status := some CwChessGameOver.BlackCheckmates }

/-- A state holding the finished game. -/
def doneSt : Storage :=
  { challenges := [], games := [doneGame], ratings := [("alice", 1192), ("bob", 1208)],
    challengeCount := 0, gameCount := 2 }

/-- C3 witness: a Turn and a DeclareTimeout against the finished game both
fail with the game-over condition and leave the state unchanged. -/
theorem finished_game_rejects_turn_and_timeout_witness :
    executeTurn extW doneSt 3 "alice" (CwChessAction.MakeMove "d4") 2 =
      Except.error ContractError.GameAlreadyOver ∧
    executeDeclareTimeout doneSt 99 2 = Except.error ContractError.GameAlreadyOver ∧
    commitS doneSt (executeTurn extW doneSt 3 "alice" (CwChessAction.MakeMove "d4") 2) = doneSt ∧
    commitS doneSt (executeDeclareTimeout doneSt 99 2) = doneSt :=
  ⟨finished_game_rejects_turn_and_timeout.1 extW doneSt 3 "alice"
      (CwChessAction.MakeMove "d4") 2 doneGame CwChessGameOver.BlackCheckmates rfl rfl,
   finished_game_rejects_turn_and_timeout.2.1 doneSt 99 2 doneGame
      CwChessGameOver.BlackCheckmates rfl rfl,
   finished_game_rejects_turn_and_timeout.2.2.1 extW doneSt 3 "alice"
      (CwChessAction.MakeMove "d4") 2 ContractError.GameAlreadyOver
      (finished_game_rejects_turn_and_timeout.1 extW doneSt 3 "alice"
        (CwChessAction.MakeMove "d4") 2 doneGame CwChessGameOver.BlackCheckmates rfl rfl),
   finished_game_rejects_turn_and_timeout.2.2.2 doneSt 99 2 ContractError.GameAlreadyOver
      (finished_game_rejects_turn_and_timeout.2.1 doneSt 99 2 doneGame
        CwChessGameOver.BlackCheckmates rfl rfl)⟩

/-- An ongoing game with a 5-block limit, last activity at block 0. -/
def timeoutGame : CwChessGame :=
  { block_limit := some 5, block_start := 0, fen := DEFAULT_FEN, game_id := 1,
    player1 := "alice", player2 := "bob", moves := [], status := none }

/-- A state holding the timed-out game and both ratings. -/
def timeoutSt : Storage :=
  { challenges := [], games := [timeoutGame], ratings := [("alice", 1300), ("bob", 1100)],
    challengeCount := 0, gameCount := 1 }

/-- The state after a successful DeclareTimeout at block 100. -/
def timeoutSt' : Storage := commitS timeoutSt (executeDeclareTimeout timeoutSt 100 1)

/-- C1 counterexample: DeclareTimeout at block 100 succeeds and sets the
terminal status WhiteTimeout, yet both stored ratings are exactly as before —
the rating engine is not invoked on the DeclareTimeout path (contract.rs
lines 241-261 never call `update_players_rating`). -/
theorem declare_timeout_skips_rating_update_cex :
    executeDeclareTimeout timeoutSt 100 1 = Except.ok timeoutSt' ∧
    (loadGame timeoutSt' 1).map CwChessGame.status =
      some (some CwChessGameOver.WhiteTimeout) ∧
    timeoutSt'.ratings = timeoutSt.ratings := by
  exact ⟨rfl, rfl, rfl⟩

/-- The ongoing game used for the Turn-side witness. -/
def turnGame : CwChessGame :=
  { block_limit := none, block_start := 0, fen := DEFAULT_FEN, game_id := 1,
    player1 := "alice", player2 := "bob", moves := [], status := none }

/-- `turnGame` after White resigns at block 50. -/
def resignedGame : CwChessGame :=
  { turnGame with status := some CwChessGameOver.WhiteResigns,
                  moves := [(50, CwChessAction.Resign)] }

/-- The state holding `turnGame` and both ratings. -/
def turnSt : Storage :=
  { challenges := [], games := [turnGame], ratings := [("alice", 1300), ("bob", 1100)],
    challengeCount := 0, gameCount := 1 }

/-- C1 (amended): when a Turn reaches a terminal status the rating engine is
applied exactly once, within the same operation, to both participants'
ratings (read both, one elo application, write both); a non-terminal Turn
leaves ratings untouched; and DeclareTimeout never updates any rating even
when it sets a terminal status. -/
theorem ratings_updated_once_on_turn_terminal :
    (∀ (ext : Ext) (st : Storage) (height : Nat) (sender : Addr) (action : CwChessAction)
        (gid : Nat) (g g' : CwChessGame) (s : CwChessGameOver),
      loadGame st gid = some g →
      make_move ext.applyMove g sender (height, action) = Except.ok g' →
      g'.status = some s →
      executeTurn ext st height sender action gid =
        Except.ok (update_players_rating ext.eloFn (saveGame st g') g'
          (statusToOutcome s))) ∧
    (∀ (ext : Ext) (st : Storage) (height : Nat) (sender : Addr) (action : CwChessAction)
        (gid : Nat) (g g' : CwChessGame),
      loadGame st gid = some g →
      make_move ext.applyMove g sender (height, action) = Except.ok g' →
      g'.status = none →
      executeTurn ext st height sender action gid = Except.ok (saveGame st g')) ∧
    (∀ (st st' : Storage) (height gid : Nat),
      executeDeclareTimeout st height gid = Except.ok st' →
      st'.ratings = st.ratings) := by
  refine ⟨?h1, ?h2, ?h3⟩
  case h1 =>
    intro ext st height sender action gid g g' s h hm hs
    unfold executeTurn
    simp only [h, hm, hs]
  case h2 =>
    intro ext st height sender action gid g g' h hm hs
    unfold executeTurn
    simp only [h, hm, hs]
  case h3 =>
    intro st st' height gid h
    unfold executeDeclareTimeout at h
    cases hl : loadGame st gid with
    | none => simp [hl] at h
    | some g =>
      simp only [hl] at h
      cases hct : check_timeout g height with
      | error e => simp [hct] at h
      | ok r =>
        obtain ⟨g', opt⟩ := r
        rw [hct] at h
        cases opt with
        | none => simp at h
        | some tag =>
          simp only [Except.ok.injEq] at h
          rw [← h]
          rfl

/-- C1 witness: a White resignation at block 50 yields the ok result with the
rating engine applied once to both ratings, and the DeclareTimeout conjunct
holds at the concrete timed-out state. -/
theorem ratings_updated_once_on_turn_terminal_witness :
    executeTurn extW turnSt 50 "alice" CwChessAction.Resign 1 =
      Except.ok (update_players_rating extW.eloFn (saveGame turnSt resignedGame)
        resignedGame (statusToOutcome CwChessGameOver.WhiteResigns)) ∧
    timeoutSt'.ratings = timeoutSt.ratings :=
  ⟨ratings_updated_once_on_turn_terminal.1 extW turnSt 50 "alice" CwChessAction.Resign 1
      turnGame resignedGame CwChessGameOver.WhiteResigns rfl rfl rfl,
   ratings_updated_once_on_turn_terminal.2.2 timeoutSt timeoutSt' 100 1 rfl⟩

/-- C5: every successful AcceptChallenge lazily initializes the acceptor's
rating, creates exactly one new Game — fresh id, block_start equal to the
current block height, empty move log, absent status, the challenge's
block_limit, the default board — keeps every previously stored game, and
deletes the Challenge so that GetChallenge on the same id returns
not-found. -/
theorem accept_challenge_success_effects
    (st st' : Storage) (height : Nat) (sender : Addr) (cid gid : Nat) (c : Challenge)
    (hfresh : ∀ g ∈ st.games, g.game_id ≤ st.gameCount)
    (hc : loadChallenge st cid = some c)
    (hok : executeAcceptChallenge st height sender cid = Except.ok (st', gid)) :
    gid = st.gameCount + 1 ∧
    lookupRating st'.ratings sender =
      some ((lookupRating st.ratings sender).getD defaultRating) ∧
    (∃ g : CwChessGame, loadGame st' gid = some g ∧ g.game_id = gid ∧
      g.block_start = height ∧ g.moves = [] ∧ g.status = none ∧
      g.block_limit = c.block_limit ∧ g.fen = DEFAULT_FEN) ∧
    st'.games.length = st.games.length + 1 ∧
    (∀ g ∈ st.games, g ∈ st'.games) ∧
    queryGetChallenge st' cid = Except.error StdError.notFound := by
  unfold executeAcceptChallenge at hok
  simp only [hc] at hok
  by_cases hself : c.created_by = sender
  · simp [hself] at hok
  · rw [if_neg hself] at hok
    have hbody : executeAcceptChallenge.acceptBody st height sender c cid = (st', gid) := by
      cases hopp : c.opponent with
      | none => simpa only [hopp, Except.ok.injEq] using hok
      | some o =>
        simp only [hopp] at hok
        by_cases hno : o ≠ sender
        · simp [hno] at hok
        · rw [if_neg hno] at hok
          simpa only [Except.ok.injEq] using hok
    clear hok
    have hgames : (def_player_rating st sender).games = st.games :=
      (def_player_rating_frame st sender).2.1
    have hgc : (def_player_rating st sender).gameCount = st.gameCount :=
      (def_player_rating_frame st sender).2.2.2
    have hbodyEq : executeAcceptChallenge.acceptBody st height sender c cid =
        (removeChallenge
          (saveGame
            { def_player_rating st sender with
                gameCount := (def_player_rating st sender).gameCount + 1 }
            { block_limit := c.block_limit, block_start := height, fen := DEFAULT_FEN,
              game_id := (def_player_rating st sender).gameCount + 1,
              player1 := (get_player_order c.created_by sender c.play_as height).1,
              player2 := (get_player_order c.created_by sender c.play_as height).2,
              moves := [], status := none })
          cid,
         (def_player_rating st sender).gameCount + 1) := rfl
    rw [hbodyEq] at hbody
    simp only [Prod.mk.injEq] at hbody
    obtain ⟨hst, hgid⟩ := hbody
    subst hst
    subst hgid
    have hne : ∀ y ∈ (def_player_rating st sender).games,
        y.game_id ≠ (def_player_rating st sender).gameCount + 1 := by
      intro y hy
      rw [hgames] at hy
      rw [hgc]
      exact Nat.ne_of_lt (Nat.lt_succ_of_le (hfresh y hy))
    refine ⟨by rw [hgc], ?hr, ?hg, ?hlen, ?hmem, ?hq⟩
    case hr => exact lookupRating_def_player_rating_self st sender
    case hg =>
      refine ⟨{ block_limit := c.block_limit, block_start := height, fen := DEFAULT_FEN,
                game_id := (def_player_rating st sender).gameCount + 1,
                player1 := (get_player_order c.created_by sender c.play_as height).1,
                player2 := (get_player_order c.created_by sender c.play_as height).2,
                moves := [], status := none }, ?hload, rfl, rfl, rfl, rfl, rfl, rfl⟩
      case hload =>
        exact find?_upsertBy_fresh CwChessGame.game_id
          { block_limit := c.block_limit, block_start := height, fen := DEFAULT_FEN,
            game_id := (def_player_rating st sender).gameCount + 1,
            player1 := (get_player_order c.created_by sender c.play_as height).1,
            player2 := (get_player_order c.created_by sender c.play_as height).2,
            moves := [], status := none }
          (def_player_rating st sender).games hne
    case hlen =>
      have := length_upsertBy_fresh CwChessGame.game_id
        { block_limit := c.block_limit, block_start := height, fen := DEFAULT_FEN,
          game_id := (def_player_rating st sender).gameCount + 1,
          player1 := (get_player_order c.created_by sender c.play_as height).1,
          player2 := (get_player_order c.created_by sender c.play_as height).2,
          moves := [], status := none }
        (def_player_rating st sender).games hne
      calc (removeChallenge (saveGame _ _) cid).games.length
          = (upsertBy CwChessGame.game_id _ (def_player_rating st sender).games).length := rfl
        _ = (def_player_rating st sender).games.length + 1 := this
        _ = st.games.length + 1 := by rw [hgames]
    case hmem =>
      intro g hgmem
      have hgmem' : g ∈ (def_player_rating st sender).games := by rw [hgames]; exact hgmem
      exact mem_of_mem_upsertBy_fresh CwChessGame.game_id g _
        (def_player_rating st sender).games hgmem' hne
    case hq =>
      unfold queryGetChallenge
      have : loadChallenge (removeChallenge (saveGame
          { def_player_rating st sender with
              gameCount := (def_player_rating st sender).gameCount + 1 }
          { block_limit := c.block_limit, block_start := height, fen := DEFAULT_FEN,
            game_id := (def_player_rating st sender).gameCount + 1,
            player1 := (get_player_order c.created_by sender c.play_as height).1,
            player2 := (get_player_order c.created_by sender c.play_as height).2,
            moves := [], status := none }) cid) cid = none :=
        find?_removeBy_self Challenge.challenge_id cid _
      rw [this]

/-- C5 witness: accepting a concrete open challenge creates the expected
game and removes the challenge. -/
theorem accept_challenge_success_effects_witness :
    lookupRating (commitP
      { challenges := [{ block_created := 0, block_limit := some 10, challenge_id := 1,
                         created_by := "alice", opponent := none, play_as := none }],
        games := [], ratings := [], challengeCount := 1, gameCount := 0 }
      (executeAcceptChallenge
        { challenges := [{ block_created := 0, block_limit := some 10, challenge_id := 1,
                           created_by := "alice", opponent := none, play_as := none }],
          games := [], ratings := [], challengeCount := 1, gameCount := 0 }
        4 "bob" 1)).ratings "bob" = some defaultRating ∧
    queryGetChallenge (commitP
      { challenges := [{ block_created := 0, block_limit := some 10, challenge_id := 1,
                         created_by := "alice", opponent := none, play_as := none }],
        games := [], ratings := [], challengeCount := 1, gameCount := 0 }
      (executeAcceptChallenge
        { challenges := [{ block_created := 0, block_limit := some 10, challenge_id := 1,
                           created_by := "alice", opponent := none, play_as := none }],
          games := [], ratings := [], challengeCount := 1, gameCount := 0 }
        4 "bob" 1)) 1 = Except.error StdError.notFound := by
  have h := accept_challenge_success_effects
    { challenges := [{ block_created := 0, block_limit := some 10, challenge_id := 1,
                       created_by := "alice", opponent := none, play_as := none }],
      games := [], ratings := [], challengeCount := 1, gameCount := 0 }
    (commitP
      { challenges := [{ block_created := 0, block_limit := some 10, challenge_id := 1,
                         created_by := "alice", opponent := none, play_as := none }],
        games := [], ratings := [], challengeCount := 1, gameCount := 0 }
      (executeAcceptChallenge
        { challenges := [{ block_created := 0, block_limit := some 10, challenge_id := 1,
                           created_by := "alice", opponent := none, play_as := none }],
          games := [], ratings := [], challengeCount := 1, gameCount := 0 }
        4 "bob" 1))
    4 "bob" 1 1
    { block_created := 0, block_limit := some 10, challenge_id := 1,
      created_by := "alice", opponent := none, play_as := none }
    (by intro g hg; simp at hg) rfl rfl
  exact ⟨h.2.1, h.2.2.2.2.2⟩

/-- C7: GetGames returns at most 25 summaries in ascending game-id order,
strictly after the cursor when `after` is given, filtered to ongoing games
unless game_over=true; every returned summary comes from a stored game, and
when `player` is given that game has the player as player1 or player2 (the
merge of the two secondary-index scans), otherwise it comes from the full
scan. -/
theorem get_games_paginated_spec
    (ext : Ext) (st : Storage) (after : Option Nat) (game_over : Option Bool)
    (player : Option String) (out : List GameSummary)
    (hsorted : st.games.Pairwise (fun g1 g2 => g1.game_id < g2.game_id))
    (hout : queryGetGames ext st after game_over player = Except.ok out) :
    out.length ≤ 25 ∧
    out.Pairwise (fun s1 s2 => s1.game_id ≤ s2.game_id) ∧
    (∀ s ∈ out, ∀ a, after = some a → a < s.game_id) ∧
    (∀ s ∈ out, game_over = some true ∨ s.status = none) ∧
    (∀ s ∈ out, ∃ g ∈ st.games, s = GameSummary.ofGame g ∧
      ∀ p, player = some p → g.player1 = p ∨ g.player2 = p) := by
  have hgo : ∀ b : Bool, game_over.getD false = true → game_over = some true := by
    intro _ h
    cases game_over with
    | none => exact absurd h (by simp)
    | some b => cases b with
      | true => rfl
      | false => exact absurd h (by simp)
  unfold queryGetGames at hout
  cases player with
  | none =>
    simp only [Except.ok.injEq] at hout
    subst hout
    have hb1 : (st.games.filter (fun g => boundAfter after g.game_id)).Pairwise
        (fun x y => x.game_id < y.game_id) := hsorted.filter _
    have hb2 : ((st.games.filter (fun g => boundAfter after g.game_id)).filter
        (fun g => game_over.getD false || g.status.isNone)).Pairwise
        (fun x y => x.game_id ≤ y.game_id) :=
      (hb1.filter _).imp (fun h => Nat.le_of_lt h)
    refine ⟨?len, ?sorted, ?afterb, ?gob, ?prov⟩
    case len =>
      rw [List.length_take]
      exact Nat.min_le_left _ _
    case sorted =>
      have hmap : ((st.games.filter (fun g => boundAfter after g.game_id)).filter
          (fun g => game_over.getD false || g.status.isNone)).map GameSummary.ofGame
          |>.Pairwise (fun s1 s2 => s1.game_id ≤ s2.game_id) := by
        rw [List.pairwise_map]
        exact hb2
      exact hmap.sublist (List.take_sublist _ _)
    case afterb =>
      intro s hs a ha
      have hs' := (List.take_sublist 25 _).subset hs
      obtain ⟨g, hgl, rfl⟩ := List.mem_map.mp hs'
      have hg1 := (List.mem_filter.mp (List.mem_filter.mp hgl).1).2
      rw [ha] at hg1
      simpa [boundAfter] using hg1
    case gob =>
      intro s hs
      have hs' := (List.take_sublist 25 _).subset hs
      obtain ⟨g, hgl, rfl⟩ := List.mem_map.mp hs'
      have hg2 := (List.mem_filter.mp hgl).2
      rcases Bool.or_eq_true_iff.mp hg2 with h | h
      · exact Or.inl (hgo true h)
      · exact Or.inr (by simpa [GameSummary.ofGame] using h)
    case prov =>
      intro s hs
      have hs' := (List.take_sublist 25 _).subset hs
      obtain ⟨g, hgl, rfl⟩ := List.mem_map.mp hs'
      exact ⟨g, (List.mem_filter.mp (List.mem_filter.mp hgl).1).1, rfl,
        fun p hp => Option.noConfusion hp⟩
  | some a =>
    cases hv : ext.validAddr a with
    | false => simp [addr_validate, hv] at hout
    | true =>
      simp only [addr_validate, hv, if_true, Except.ok.injEq] at hout
      subst hout
      have hle : ∀ u v : CwChessGame,
          (decide (u.game_id ≤ v.game_id) = true) ↔ u.game_id ≤ v.game_id := by
        intro u v
        simp
      have hp1 : (st.games.filter
          (fun g => g.player1 == a && boundAfter after g.game_id)).Pairwise
          (fun x y => x.game_id ≤ y.game_id) :=
        (hsorted.filter _).imp (fun h => Nat.le_of_lt h)
      have hp2 : (st.games.filter
          (fun g => g.player2 == a && boundAfter after g.game_id)).Pairwise
          (fun x y => x.game_id ≤ y.game_id) :=
        (hsorted.filter _).imp (fun h => Nat.le_of_lt h)
      have hmerge := merge_iters_sorted CwChessGame.game_id
        (fun g1 g2 => decide (g1.game_id ≤ g2.game_id)) hle _ _ hp1 hp2
      refine ⟨?len, ?sorted, ?afterb, ?gob, ?prov⟩
      case len =>
        rw [List.length_take]
        exact Nat.min_le_left _ _
      case sorted =>
        have hmap : ((merge_iters
            (st.games.filter (fun g => g.player1 == a && boundAfter after g.game_id))
            (st.games.filter (fun g => g.player2 == a && boundAfter after g.game_id))
            (fun g1 g2 => decide (g1.game_id ≤ g2.game_id))).filter
            (fun g => game_over.getD false || g.status.isNone)).map GameSummary.ofGame
            |>.Pairwise (fun s1 s2 => s1.game_id ≤ s2.game_id) := by
          rw [List.pairwise_map]
          exact hmerge.filter _
        exact hmap.sublist (List.take_sublist _ _)
      case afterb =>
        intro s hs a' ha
        have hs' := (List.take_sublist 25 _).subset hs
        obtain ⟨g, hgl, rfl⟩ := List.mem_map.mp hs'
        have hgm := (List.mem_filter.mp hgl).1
        have : boundAfter after g.game_id = true := by
          rcases mem_merge_iters hgm with h | h
          · exact (Bool.and_eq_true_iff.mp (List.mem_filter.mp h).2).2
          · exact (Bool.and_eq_true_iff.mp (List.mem_filter.mp h).2).2
        rw [ha] at this
        simpa [boundAfter] using this
      case gob =>
        intro s hs
        have hs' := (List.take_sublist 25 _).subset hs
        obtain ⟨g, hgl, rfl⟩ := List.mem_map.mp hs'
        have hg2 := (List.mem_filter.mp hgl).2
        rcases Bool.or_eq_true_iff.mp hg2 with h | h
        · exact Or.inl (hgo true h)
        · exact Or.inr (by simpa [GameSummary.ofGame] using h)
      case prov =>
        intro s hs
        have hs' := (List.take_sublist 25 _).subset hs
        obtain ⟨g, hgl, rfl⟩ := List.mem_map.mp hs'
        have hgm := (List.mem_filter.mp hgl).1
        rcases mem_merge_iters hgm with h | h
        · refine ⟨g, (List.mem_filter.mp h).1, rfl, fun p hp => ?hpl⟩
          case hpl =>
            have hb := (Bool.and_eq_true_iff.mp (List.mem_filter.mp h).2).1
            cases hp
            exact Or.inl (by simpa using hb)
        · refine ⟨g, (List.mem_filter.mp h).1, rfl, fun p hp => ?hpr⟩
          case hpr =>
            have hb := (Bool.and_eq_true_iff.mp (List.mem_filter.mp h).2).1
            cases hp
            exact Or.inr (by simpa using hb)

/-- A second stored game: ongoing, between bob and carol. -/
def gameTwo : CwChessGame :=
  { block_limit := none, block_start := 7, fen := DEFAULT_FEN, game_id := 2,
    player1 := "bob", player2 := "carol", moves := [], status := none }

/-- A two-game state for the listing witnesses. -/
def listSt : Storage :=
  { challenges := [], games := [turnGame, gameTwo], ratings := [],
    challengeCount := 0, gameCount := 2 }

/-- C7 witness: the spec applied to a concrete two-game state, listing bob's
games. -/
theorem get_games_paginated_spec_witness :
    ∃ out, queryGetGames extW listSt none none (some "bob") = Except.ok out ∧
      out.length ≤ 25 ∧
      out.Pairwise (fun s1 s2 => s1.game_id ≤ s2.game_id) ∧
      (∀ s ∈ out, ∃ g ∈ listSt.games, s = GameSummary.ofGame g ∧
        ∀ p, some "bob" = some p → g.player1 = p ∨ g.player2 = p) := by
  have hq : queryGetGames extW listSt none none (some "bob") =
      Except.ok [GameSummary.ofGame turnGame, GameSummary.ofGame gameTwo] := by
    simp [queryGetGames, addr_validate, extW, listSt, turnGame, gameTwo, boundAfter,
      merge_iters, List.filter, GameSummary.ofGame]
  have h := get_games_paginated_spec extW listSt none none (some "bob")
    [GameSummary.ofGame turnGame, GameSummary.ofGame gameTwo]
    (by simp [listSt, turnGame, gameTwo]) hq
  exact ⟨[GameSummary.ofGame turnGame, GameSummary.ofGame gameTwo], hq, h.1, h.2.1, h.2.2.2.2⟩

/-- The challenge invariant of the spec: a challenge's creator never equals
its (present) opponent. -/
def ChallengesWF (st : Storage) : Prop :=
  ∀ c ∈ st.challenges, c.opponent ≠ some c.created_by

theorem finishCreate_challenges (st : Storage) (bc : Nat) (bl : Option Nat) (cid : Nat)
    (cb : Addr) (opp : Option Addr) (pa : Option CwChessColor) :
    (finishCreate st bc bl cid cb opp pa).challenges =
      upsertBy Challenge.challenge_id
        { block_created := bc, block_limit := bl, challenge_id := cid,
          created_by := cb, opponent := opp, play_as := pa } st.challenges := by
  unfold finishCreate
  cases opp with
  | none => exact (def_player_rating_frame (saveChallenge st _) cb).1
  | some o =>
    rw [(def_player_rating_frame _ o).1]
    exact (def_player_rating_frame (saveChallenge st _) cb).1

/-- C9: every stored challenge keeps created_by distinct from its opponent —
CreateChallenge rejects a self-directed challenge and Accept/Cancel only
remove — so for a single queried player the created_by-index scan and the
opponent-index scan are disjoint and the merged GetChallenges listing never
returns the same challenge twice. -/
theorem challenge_indexes_disjoint_no_duplicates :
    (∀ (ext : Ext) (st : Storage) (height : Nat) (sender : Addr)
        (block_limit : Option Nat) (opponent : Option String)
        (play_as : Option CwChessColor) (st' : Storage) (cid : Nat),
      executeCreateChallenge ext st height sender block_limit opponent play_as =
        Except.ok (st', cid) →
      ChallengesWF st → ChallengesWF st') ∧
    (∀ (st : Storage) (height : Nat) (sender : Addr) (cid : Nat)
        (st' : Storage) (gid : Nat),
      executeAcceptChallenge st height sender cid = Except.ok (st', gid) →
      ChallengesWF st → ChallengesWF st') ∧
    (∀ (st : Storage) (sender : Addr) (cid : Nat) (st' : Storage),
      executeCancelChallenge st sender cid = Except.ok st' →
      ChallengesWF st → ChallengesWF st') ∧
    (∀ (ext : Ext) (st : Storage) (after : Option Nat) (p : String)
        (out : List Challenge),
      st.challenges.Pairwise (fun a b => a.challenge_id < b.challenge_id) →
      ChallengesWF st → p ≠ "none" →
      queryGetChallenges ext st after (some p) = Except.ok out →
      out.Pairwise (fun a b => a.challenge_id ≠ b.challenge_id)) := by
  refine ⟨?hcreate, ?haccept, ?hcancel, ?hquery⟩
  case hcreate =>
    intro ext st height sender block_limit opponent play_as st' cid hok hwf
    unfold executeCreateChallenge at hok
    cases opponent with
    | none =>
      simp only [Except.ok.injEq, Prod.mk.injEq] at hok
      intro c hc
      rw [← hok.1, finishCreate_challenges] at hc
      rcases mem_upsertBy Challenge.challenge_id c _ _ hc with rfl | hc'
      · intro h
        exact Option.noConfusion h
      · exact hwf c hc'
    | some o =>
      simp only [addr_validate] at hok
      cases hv : ext.validAddr o with
      | false => simp [hv] at hok
      | true =>
        simp only [hv, if_true] at hok
        by_cases hself : sender = o
        · simp [hself] at hok
        · rw [if_neg hself] at hok
          simp only [Except.ok.injEq, Prod.mk.injEq] at hok
          intro c hc
          rw [← hok.1, finishCreate_challenges] at hc
          rcases mem_upsertBy Challenge.challenge_id c _ _ hc with rfl | hc'
          · intro h
            exact hself (Option.some.inj h).symm
          · exact hwf c hc'
  case haccept =>
    intro st height sender cid st' gid hok hwf
    unfold executeAcceptChallenge at hok
    cases hc : loadChallenge st cid with
    | none => simp [hc] at hok
    | some ch =>
      simp only [hc] at hok
      by_cases hself : ch.created_by = sender
      · simp [hself] at hok
      · rw [if_neg hself] at hok
        have hbody : executeAcceptChallenge.acceptBody st height sender ch cid = (st', gid) := by
          cases hopp : ch.opponent with
          | none => simpa only [hopp, Except.ok.injEq] using hok
          | some o =>
            simp only [hopp] at hok
            by_cases hno : o ≠ sender
            · simp [hno] at hok
            · rw [if_neg hno] at hok
              simpa only [Except.ok.injEq] using hok
        have hch : st'.challenges =
            removeBy Challenge.challenge_id cid (def_player_rating st sender).challenges := by
          unfold executeAcceptChallenge.acceptBody at hbody
          simp only [Prod.mk.injEq] at hbody
          rw [← hbody.1]
          rfl
        intro c hcmem
        rw [hch, (def_player_rating_frame st sender).1] at hcmem
        exact hwf c (List.mem_filter.mp hcmem).1
  case hcancel =>
    intro st sender cid st' hok hwf
    unfold executeCancelChallenge at hok
    cases hc : loadChallenge st cid with
    | none => simp [hc] at hok
    | some ch =>
      simp only [hc] at hok
      by_cases hcb : ch.created_by ≠ sender
      · simp [hcb] at hok
      · rw [if_neg hcb] at hok
        simp only [Except.ok.injEq] at hok
        intro c hcmem
        rw [← hok] at hcmem
        exact hwf c (List.mem_filter.mp hcmem).1
  case hquery =>
    intro ext st after p out hsorted hwf hp hout
    unfold queryGetChallenges at hout
    cases hv : ext.validAddr p with
    | false => simp [addr_validate, hv] at hout
    | true =>
      simp only [addr_validate, hv, if_true, Except.ok.injEq] at hout
      subst hout
      have hsym : Symmetric (fun a b : Challenge => a.challenge_id ≠ b.challenge_id) :=
        fun _ _ h => Ne.symm h
      have happend : ((st.challenges.filter
          (fun c => c.created_by == p && boundAfter after c.challenge_id)) ++
          (st.challenges.filter
          (fun c => opponentKey c == p && boundAfter after c.challenge_id))).Pairwise
          (fun a b => a.challenge_id ≠ b.challenge_id) := by
        rw [List.pairwise_append]
        refine ⟨(hsorted.filter _).imp (fun h => Nat.ne_of_lt h),
          (hsorted.filter _).imp (fun h => Nat.ne_of_lt h), ?cross⟩
        intro x hx y hy hxy
        have hxs := List.mem_filter.mp hx
        have hys := List.mem_filter.mp hy
        have hxey : x = y := eq_of_mem_pairwise_lt Challenge.challenge_id st.challenges
          hsorted x hxs.1 y hys.1 hxy
        subst hxey
        have hcb : (x.created_by == p) = true := (Bool.and_eq_true_iff.mp hxs.2).1
        have hok : (opponentKey x == p) = true := (Bool.and_eq_true_iff.mp hys.2).1
        have hcb' : x.created_by = p := by simpa using hcb
        have hok' : opponentKey x = p := by simpa using hok
        cases ho : x.opponent with
        | none =>
          have hn : ("none" : String) = p := by simpa [opponentKey, ho] using hok'
          exact hp hn.symm
        | some o =>
          have ho' : o = p := by simpa [opponentKey, ho] using hok'
          exact hwf x hxs.1 (by rw [ho, ho', hcb'])
      have hmerge := ((merge_iters_perm
        (st.challenges.filter
          (fun c => c.created_by == p && boundAfter after c.challenge_id))
        (st.challenges.filter
          (fun c => opponentKey c == p && boundAfter after c.challenge_id))
        (fun c1 c2 => decide (c1.challenge_id ≤ c2.challenge_id))).pairwise_iff
        (fun h => hsym h)).mpr happend
      exact hmerge.sublist (List.take_sublist _ _)

/-- C9 witness: creating a directed challenge preserves the invariant, and
the merged listing for a concrete player has no duplicate ids. -/
theorem challenge_indexes_disjoint_no_duplicates_witness :
    ChallengesWF (commitP emptySt
      (executeCreateChallenge extW emptySt 0 "alice" none (some "bob") none)) ∧
    ∃ out, queryGetChallenges extW
      { challenges := [{ block_created := 0, block_limit := none, challenge_id := 1,
                         created_by := "alice", opponent := some "bob", play_as := none }],
        games := [], ratings := [], challengeCount := 1, gameCount := 0 }
      none (some "bob") = Except.ok out ∧
      out.Pairwise (fun a b => a.challenge_id ≠ b.challenge_id) := by
  constructor
  · exact challenge_indexes_disjoint_no_duplicates.1 extW emptySt 0 "alice" none
      (some "bob") none
      (commitP emptySt (executeCreateChallenge extW emptySt 0 "alice" none (some "bob") none))
      1 rfl (by intro c hc; simp [emptySt] at hc)
  · refine ⟨[{ block_created := 0, block_limit := none, challenge_id := 1,
               created_by := "alice", opponent := some "bob", play_as := none }], ?hq, ?hnd⟩
    case hq =>
      simp [queryGetChallenges, addr_validate, extW, opponentKey, boundAfter,
        merge_iters, List.filter]
    case hnd =>
      exact challenge_indexes_disjoint_no_duplicates.2.2.2 extW
        { challenges := [{ block_created := 0, block_limit := none, challenge_id := 1,
                           created_by := "alice", opponent := some "bob", play_as := none }],
          games := [], ratings := [], challengeCount := 1, gameCount := 0 }
        none "bob" _
        (by simp)
        (by intro c hc; simp at hc; subst hc; simp)
        (by decide)
        (by simp [queryGetChallenges, addr_validate, extW, opponentKey, boundAfter,
          merge_iters, List.filter])

end CosmosChess
